import Mathlib

/-!
Verification of the trace-collection-and-evaluation pipeline of the
RDI-AgentBeats-MAS-GraphJudge repository, shallowly embedded in Lean 4.

Python floats are modelled as exact rationals (ℚ), Python ints as ℤ/ℕ,
`None` as `Option.none`, raised exceptions as `Except.error`.  Each
definition mirrors one function of the source tree (`src/src/green/...`);
the external networkx algorithms that the source calls are modelled as an
abstract backend constrained only by their documented contract.
-/

namespace GraphJudge

/-- Call type enumeration (`green/models.py`, `CallType`). -/
inductive CallType
  | AGENT
  | TOOL
  | HOST
deriving DecidableEq, Repr

/-- One recorded exchange (`green/models.py`, `InteractionStep`).
Timestamps are rationals (seconds); `latency` is milliseconds. -/
structure InteractionStep where
  step_id : String
  trace_id : String
  call_type : CallType
  start_time : ℚ
  end_time : ℚ
  latency : Option ℤ := none
  error : Option String := none
  parent_step_id : Option String := none
deriving DecidableEq, Repr

/-- Shorthand constructor used by concrete witnesses. -/
def mkStep (sid : String) (parent : Option String := none)
    (lat : Option ℤ := none) (err : Option String := none) : InteractionStep :=
  { step_id := sid, trace_id := "t", call_type := CallType.AGENT,
    start_time := 0, end_time := 0, latency := lat, error := err,
    parent_step_id := parent }

/-! ## Semantic judge fallback (`green/evals/llm_judge.py`) -/

/-- Structured judgment (`llm_judge.py`, `LLMJudgment`). -/
structure LLMJudgment where
  overall_score : ℚ
  reasoning : String
  coordination_quality : String
  strengths : List String
  weaknesses : List String
deriving DecidableEq, Repr

/-- Python `min(a, b)` on two floats (ties keep the first argument). -/
def pyMin (a b : ℚ) : ℚ := if a ≤ b then a else b

/-- Python `max(a, b)` on two floats (ties keep the first argument). -/
def pyMax (a b : ℚ) : ℚ := if b ≤ a then a else b

/-- Source `step.latency or 0` — `None` (and the falsy 0) become 0. -/
def latencyOrZero (s : InteractionStep) : ℤ :=
  (s.latency).getD 0

/-- Source `sum(step.latency or 0 for step in steps) / len(steps)` (`llm_judge.py:197`). -/
def avgLatency (steps : List InteractionStep) : ℚ :=
  ((steps.map latencyOrZero).sum : ℚ) / (steps.length : ℚ)

/-- Source `any(step.error is not None for step in steps)` (`llm_judge.py:196`). -/
def hasErrors (steps : List InteractionStep) : Bool :=
  steps.any (fun s => s.error.isSome)

/-- Rounded rendering used for the reasoning text (`f"{avg_latency:.0f}"`;
Python rounds half to even, we use the nearest integer via `round` — the
difference can only show in the free-text `reasoning` field). -/
def fmtAvg (q : ℚ) : String :=
  toString (round q : ℤ)

/-- Fallback judge (`llm_judge.py`, `rule_based_evaluate`). -/
def rule_based_evaluate (steps : List InteractionStep) : LLMJudgment :=
  if steps.isEmpty then
    { overall_score := 0
      reasoning := "No interaction steps to evaluate"
      coordination_quality := "low"
      strengths := []
      weaknesses := ["No coordination data available"] }
  else
    let has_errors := hasErrors steps
    let avg_latency := avgLatency steps
    let num_steps := steps.length
    let score0 : ℚ := 8/10
    let score1 := if has_errors then score0 - 3/10 else score0
    let score2 :=
      if avg_latency > 2000 then score1 - 2/10
      else if avg_latency > 1000 then score1 - 1/10
      else score1
    let score3 := if num_steps > 1 then score2 + 1/10 else score2
    let score := pyMax 0 (pyMin 1 score3)
    let quality :=
      if score ≥ 7/10 then "high"
      else if score ≥ 3/10 then "medium"
      else "low"
    let strengths :=
      (if !has_errors then ["No errors in coordination"] else []) ++
      (if avg_latency < 1000 then ["Low latency"] else []) ++
      (if num_steps > 1 then ["Multiple interaction steps"] else [])
    let weaknesses :=
      (if has_errors then ["Errors detected in coordination"] else []) ++
      (if avg_latency > 2000 then ["High latency"] else [])
    { overall_score := score
      reasoning := "Rule-based evaluation: " ++ toString num_steps ++
        " steps, avg latency " ++ fmtAvg avg_latency ++ "ms, " ++
        (if has_errors then "with errors" else "no errors")
      coordination_quality := quality
      strengths := strengths
      weaknesses := weaknesses }

/-- Reference definition of the fallback score, written from the spec's words
(§4.4): base 0.8; minus 0.3 on any error; minus 0.2 if average latency
exceeds 2000 ms else minus 0.1 if it exceeds 1000 ms; plus 0.1 if more than
one step; clamped to [0, 1]. -/
def specFallbackScore (steps : List InteractionStep) : ℚ :=
  pyMax 0 (pyMin 1
    (8/10
      - (if hasErrors steps then 3/10 else 0)
      - (if avgLatency steps > 2000 then 2/10
         else if avgLatency steps > 1000 then 1/10 else 0)
      + (if steps.length > 1 then 1/10 else 0)))

/-- Reference quality label from the spec's words (§4.4): "high" iff
score ≥ 0.7, "medium" iff 0.3 ≤ score < 0.7, else "low". -/
def specQualityLabel (score : ℚ) : String :=
  if score ≥ 7/10 then "high"
  else if score ≥ 3/10 then "medium"
  else "low"

/-- The step-wise penalty accumulation of `rule_based_evaluate` equals the
spec's single-expression formula before clamping. -/
lemma ruleScore_accum_eq (steps : List InteractionStep) :
    (let score1 := if hasErrors steps then (8:ℚ)/10 - 3/10 else 8/10
     let score2 :=
       if avgLatency steps > 2000 then score1 - 2/10
       else if avgLatency steps > 1000 then score1 - 1/10
       else score1
     if steps.length > 1 then score2 + 1/10 else score2) =
    (8/10
      - (if hasErrors steps then (3:ℚ)/10 else 0)
      - (if avgLatency steps > 2000 then (2:ℚ)/10
         else if avgLatency steps > 1000 then 1/10 else 0)
      + (if steps.length > 1 then (1:ℚ)/10 else 0)) := by
  by_cases h1 : hasErrors steps <;>
    by_cases h2 : avgLatency steps > 2000 <;>
      by_cases h3 : avgLatency steps > 1000 <;>
        by_cases h4 : steps.length > 1 <;>
          simp only [h1, h2, h3, h4, if_true, if_false, if_pos, if_neg,
            Bool.false_eq_true, not_false_iff] <;> ring

/-- C2: For every step list, the fallback judge `rule_based_evaluate`
returns (without raising) the Judgment of the reference definition: for the
empty list, score 0, quality "low", no strengths and exactly one weakness
about missing coordination data; for a non-empty list, the score is the
clamped spec formula `specFallbackScore` and the quality label is
`specQualityLabel` of that score. -/
theorem rule_based_evaluate_matches_spec (steps : List InteractionStep) :
    (steps = [] →
      rule_based_evaluate steps =
        { overall_score := 0
          reasoning := "No interaction steps to evaluate"
          coordination_quality := "low"
          strengths := []
          weaknesses := ["No coordination data available"] }) ∧
    (steps ≠ [] →
      (rule_based_evaluate steps).overall_score = specFallbackScore steps ∧
      (rule_based_evaluate steps).coordination_quality =
        specQualityLabel (specFallbackScore steps)) := by
  constructor
  · rintro rfl
    rfl
  · intro h
    have hne : steps.isEmpty = false := by
      cases steps with
      | nil => exact absurd rfl h
      | cons a l => rfl
    have hscore : (rule_based_evaluate steps).overall_score =
        specFallbackScore steps := by
      simp only [rule_based_evaluate, hne, Bool.false_eq_true, if_false,
        specFallbackScore]
      rw [ruleScore_accum_eq]
    refine ⟨hscore, ?_⟩
    have hq : (rule_based_evaluate steps).coordination_quality =
        specQualityLabel ((rule_based_evaluate steps).overall_score) := by
      simp only [rule_based_evaluate, hne, Bool.false_eq_true, if_false,
        specQualityLabel]
    rw [hq, hscore]

/-- Witness for C2: a single error-free 100 ms step is non-empty, scores
`specFallbackScore` = 0.8 and is labelled "high". -/
theorem rule_based_evaluate_matches_spec_witness :
    ([mkStep "a" none (some 100)] ≠ ([] : List InteractionStep)) ∧
    (rule_based_evaluate [mkStep "a" none (some 100)]).overall_score =
      specFallbackScore [mkStep "a" none (some 100)] ∧
    (rule_based_evaluate [mkStep "a" none (some 100)]).coordination_quality =
      specQualityLabel (specFallbackScore [mkStep "a" none (some 100)]) :=
  ⟨by simp,
   (rule_based_evaluate_matches_spec [mkStep "a" none (some 100)]).2 (by simp)⟩

/-! ## Graph builder (`green/evals/graph.py`, `GraphEvaluator._build_graph`)

A networkx `DiGraph` is modelled as insertion-ordered duplicate-free lists of
nodes and edges; `add_node` is a no-op on a present node, and `add_edge`
inserts both endpoints as nodes first (networkx semantics). -/

structure DiGraph where
  nodes : List String
  edges : List (String × String)
deriving DecidableEq, Repr

def emptyDiGraph : DiGraph := { nodes := [], edges := [] }

/-- networkx `add_node`. -/
def addNode (g : DiGraph) (v : String) : DiGraph :=
  if v ∈ g.nodes then g else { g with nodes := g.nodes ++ [v] }

/-- networkx `add_edge`: ensures both endpoints exist, then adds the edge. -/
def addEdge (g : DiGraph) (u v : String) : DiGraph :=
  let g1 := addNode (addNode g u) v
  if (u, v) ∈ g1.edges then g1 else { g1 with edges := g1.edges ++ [(u, v)] }

/-- Source `GraphEvaluator._build_graph`: one `add_node` per step, then one
`add_edge parent_step_id step_id` per step that has a parent. -/
def buildGraph (traces : List InteractionStep) : DiGraph :=
  let g0 := traces.foldl (fun g s => addNode g s.step_id) emptyDiGraph
  traces.foldl
    (fun g s =>
      match s.parent_step_id with
      | some p => addEdge g p s.step_id
      | none => g)
    g0

lemma addNode_nodes_mem (g : DiGraph) (u v : String) :
    v ∈ (addNode g u).nodes ↔ v ∈ g.nodes ∨ v = u := by
  unfold addNode
  by_cases h : u ∈ g.nodes
  · simp only [h, if_true]
    constructor
    · exact Or.inl
    · rintro (hv | rfl) <;> [exact hv; exact h]
  · simp [h]

lemma addNode_edges (g : DiGraph) (u : String) :
    (addNode g u).edges = g.edges := by
  unfold addNode
  by_cases h : u ∈ g.nodes <;> simp [h]

lemma addEdge_nodes_mem (g : DiGraph) (u v w : String) :
    w ∈ (addEdge g u v).nodes ↔ w ∈ g.nodes ∨ w = u ∨ w = v := by
  unfold addEdge
  by_cases h : (u, v) ∈ (addNode (addNode g u) v).edges <;>
    simp [h, addNode_nodes_mem, or_assoc]

lemma addEdge_edges_mem (g : DiGraph) (u v : String) (e : String × String) :
    e ∈ (addEdge g u v).edges ↔ e ∈ g.edges ∨ e = (u, v) := by
  unfold addEdge
  simp only [addNode_edges]
  by_cases h : (u, v) ∈ g.edges
  · simp only [h, if_true, addNode_edges]
    constructor
    · exact Or.inl
    · rintro (he | rfl) <;> [exact he; exact h]
  · simp [h]

lemma foldl_addNode_mem (traces : List InteractionStep) (g : DiGraph)
    (v : String) :
    v ∈ (traces.foldl (fun g s => addNode g s.step_id) g).nodes ↔
      v ∈ g.nodes ∨ ∃ s ∈ traces, s.step_id = v := by
  induction traces generalizing g with
  | nil => simp
  | cons a l ih =>
    simp only [List.foldl_cons, ih, addNode_nodes_mem, List.mem_cons]
    constructor
    · rintro ((hg | rfl) | ⟨s, hs, rfl⟩)
      · exact Or.inl hg
      · exact Or.inr ⟨a, Or.inl rfl, rfl⟩
      · exact Or.inr ⟨s, Or.inr hs, rfl⟩
    · rintro (hg | ⟨s, hs | hs, rfl⟩)
      · exact Or.inl (Or.inl hg)
      · subst hs; exact Or.inl (Or.inr rfl)
      · exact Or.inr ⟨s, hs, rfl⟩

lemma foldl_addNode_edges (traces : List InteractionStep) (g : DiGraph) :
    (traces.foldl (fun g s => addNode g s.step_id) g).edges = g.edges := by
  induction traces generalizing g with
  | nil => rfl
  | cons a l ih => simp [ih, addNode_edges]

lemma foldl_addParentEdges_nodes_mem (traces : List InteractionStep)
    (g : DiGraph) (v : String) :
    v ∈ (traces.foldl
          (fun g s =>
            match s.parent_step_id with
            | some p => addEdge g p s.step_id
            | none => g) g).nodes ↔
      v ∈ g.nodes ∨
        ∃ s ∈ traces, s.parent_step_id.isSome ∧
          (s.parent_step_id = some v ∨ s.step_id = v) := by
  induction traces generalizing g with
  | nil => simp
  | cons a l ih =>
    simp only [List.foldl_cons, List.mem_cons]
    cases hp : a.parent_step_id with
    | none =>
      rw [ih]
      constructor
      · rintro (hg | ⟨s, hs, h1, h2⟩)
        · exact Or.inl hg
        · exact Or.inr ⟨s, Or.inr hs, h1, h2⟩
      · rintro (hg | ⟨s, hs | hs, h1, h2⟩)
        · exact Or.inl hg
        · subst hs; rw [hp] at h1; exact absurd h1 (by simp)
        · exact Or.inr ⟨s, hs, h1, h2⟩
    | some p =>
      rw [ih]
      simp only [addEdge_nodes_mem]
      constructor
      · rintro ((hg | rfl | rfl) | ⟨s, hs, h1, h2⟩)
        · exact Or.inl hg
        · exact Or.inr ⟨a, Or.inl rfl, by simp [hp]⟩
        · exact Or.inr ⟨a, Or.inl rfl, by simp [hp]⟩
        · exact Or.inr ⟨s, Or.inr hs, h1, h2⟩
      · rintro (hg | ⟨s, hs | hs, h1, h2⟩)
        · exact Or.inl (Or.inl hg)
        · subst hs
          rw [hp] at h2
          rcases h2 with h2 | h2
          · exact Or.inl (Or.inr (Or.inl (Option.some_injective _ h2).symm))
          · exact Or.inl (Or.inr (Or.inr h2.symm))
        · exact Or.inr ⟨s, hs, h1, h2⟩

lemma foldl_addParentEdges_edges_mem (traces : List InteractionStep)
    (g : DiGraph) (e : String × String) :
    e ∈ (traces.foldl
          (fun g s =>
            match s.parent_step_id with
            | some p => addEdge g p s.step_id
            | none => g) g).edges ↔
      e ∈ g.edges ∨ ∃ s ∈ traces, s.parent_step_id = some e.1 ∧ s.step_id = e.2 := by
  induction traces generalizing g with
  | nil => simp
  | cons a l ih =>
    simp only [List.foldl_cons, List.mem_cons]
    cases hp : a.parent_step_id with
    | none =>
      rw [ih]
      constructor
      · rintro (hg | ⟨s, hs, h1, h2⟩)
        · exact Or.inl hg
        · exact Or.inr ⟨s, Or.inr hs, h1, h2⟩
      · rintro (hg | ⟨s, hs | hs, h1, h2⟩)
        · exact Or.inl hg
        · subst hs; rw [hp] at h1; exact absurd h1 (by simp)
        · exact Or.inr ⟨s, hs, h1, h2⟩
    | some p =>
      rw [ih]
      simp only [addEdge_edges_mem]
      constructor
      · rintro ((hg | rfl) | ⟨s, hs, h1, h2⟩)
        · exact Or.inl hg
        · exact Or.inr ⟨a, Or.inl rfl, by simp [hp]⟩
        · exact Or.inr ⟨s, Or.inr hs, h1, h2⟩
      · rintro (hg | ⟨s, hs | hs, h1, h2⟩)
        · exact Or.inl (Or.inl hg)
        · subst hs
          rw [hp] at h1
          refine Or.inl (Or.inr ?_)
          cases e
          simp only at h1 h2
          simp [← h2, Option.some_injective _ h1]
        · exact Or.inr ⟨s, hs, h1, h2⟩

/-- C3 counterexample: A single step whose `parent_step_id` names an
identifier that is no step's `step_id` puts that identifier into the node
set (networkx `add_edge` inserts missing endpoints), so the node set is not
the set of `step_id` values of the list. -/
theorem buildGraph_nodes_not_only_step_ids :
    "b" ∈ (buildGraph [mkStep "a" (some "b")]).nodes ∧
    "b" ∉ ([mkStep "a" (some "b")].map InteractionStep.step_id) := by
  constructor
  · show "b" ∈ (["a", "b"] : List String)
    simp
  · simp [mkStep]

/-- C3 amended: For every step list, the edge set of the built graph is
exactly the set of pairs `(parent_step_id, step_id)` over steps with a
non-null parent, and the node set is exactly the `step_id` values together
with the non-null `parent_step_id` values; in particular a step without a
parent contributes only its own node, and whenever every non-null parent
identifier is itself some step's `step_id` the node set is exactly the set
of distinct `step_id` values, as the original claim stated. -/
theorem buildGraph_characterization (traces : List InteractionStep) :
    (∀ v, v ∈ (buildGraph traces).nodes ↔
      (∃ s ∈ traces, s.step_id = v) ∨ ∃ s ∈ traces, s.parent_step_id = some v) ∧
    (∀ e : String × String, e ∈ (buildGraph traces).edges ↔
      ∃ s ∈ traces, s.parent_step_id = some e.1 ∧ s.step_id = e.2) ∧
    ((∀ s ∈ traces, ∀ p, s.parent_step_id = some p →
        ∃ s2 ∈ traces, s2.step_id = p) →
      ∀ v, v ∈ (buildGraph traces).nodes ↔ ∃ s ∈ traces, s.step_id = v) := by
  have hnodes : ∀ v, v ∈ (buildGraph traces).nodes ↔
      (∃ s ∈ traces, s.step_id = v) ∨ ∃ s ∈ traces, s.parent_step_id = some v := by
    intro v
    unfold buildGraph
    rw [foldl_addParentEdges_nodes_mem, foldl_addNode_mem]
    constructor
    · rintro ((hg | hs) | ⟨s, hs, h1, h2 | h2⟩)
      · simp [emptyDiGraph] at hg
      · exact Or.inl hs
      · exact Or.inr ⟨s, hs, h2⟩
      · exact Or.inl ⟨s, hs, h2⟩
    · rintro (⟨s, hs, h⟩ | ⟨s, hs, h⟩)
      · exact Or.inl (Or.inr ⟨s, hs, h⟩)
      · exact Or.inr ⟨s, hs, by simp [h], Or.inl h⟩
  refine ⟨hnodes, ?_, ?_⟩
  · intro e
    unfold buildGraph
    rw [foldl_addParentEdges_edges_mem, foldl_addNode_edges]
    simp [emptyDiGraph]
  · intro hclosed v
    rw [hnodes v]
    constructor
    · rintro (h | ⟨s, hs, hp⟩)
      · exact h
      · exact hclosed s hs v hp
    · exact Or.inl

/-- Witness for C3 (amended): on the two-step chain `a → b` every non-null
parent identifier is a step identifier, so node membership coincides with
the `step_id` values. -/
theorem buildGraph_characterization_witness :
    "b" ∈ (buildGraph [mkStep "a", mkStep "b" (some "a")]).nodes ↔
      ∃ s ∈ [mkStep "a", mkStep "b" (some "a")], s.step_id = "b" := by
  refine (buildGraph_characterization [mkStep "a", mkStep "b" (some "a")]).2.2
    ?_ "b"
  intro s hs p hp
  simp only [List.mem_cons, List.not_mem_nil, or_false] at hs
  rcases hs with rfl | rfl
  · exact absurd hp (by simp [mkStep])
  · have hpa : "a" = p := Option.some_injective _ hp
    exact ⟨mkStep "a", by simp, by simp [mkStep, hpa]⟩

/-! ## Built-in structural metrics (`green/evals/graph.py`)

`graph_density`, `clustering_coefficient`, degree centrality and weak
connectivity are computed here exactly as networkx computes them; the
remaining library algorithms are abstracted into `NxBackend` below. -/

def inDegree (g : DiGraph) (v : String) : ℕ :=
  (g.edges.filter (fun e => e.2 = v)).length

def outDegree (g : DiGraph) (v : String) : ℕ :=
  (g.edges.filter (fun e => e.1 = v)).length

/-- networkx `DiGraph.degree`: in-degree plus out-degree (a self-loop counts
once in each). -/
def nxDegree (g : DiGraph) (v : String) : ℕ :=
  inDegree g v + outDegree g v

/-- networkx `degree_centrality`: degree scaled by `1/(n-1)` (scale 1 when
the graph has at most one node); one entry per node. -/
def degreeCentralityMap (g : DiGraph) : List (String × ℚ) :=
  let s : ℚ :=
    if g.nodes.length ≤ 1 then 1 else 1 / ((g.nodes.length : ℚ) - 1)
  g.nodes.map (fun v => (v, (nxDegree g v : ℚ) * s))

/-- networkx `density` for a directed graph: `m / (n*(n-1))`, 0 when `m = 0`
or `n ≤ 1`. -/
def densityValue (g : DiGraph) : ℚ :=
  if g.edges.length = 0 ∨ g.nodes.length ≤ 1 then 0
  else (g.edges.length : ℚ) / ((g.nodes.length : ℚ) * ((g.nodes.length : ℚ) - 1))

/-- Neighbours of `v` in the undirected projection, self excluded (networkx
clustering ignores self-loops). -/
def clustNbrs (g : DiGraph) (v : String) : List String :=
  g.nodes.filter (fun w => w ≠ v ∧ ((v, w) ∈ g.edges ∨ (w, v) ∈ g.edges))

/-- networkx local clustering on the undirected projection:
`(ordered connected neighbour pairs) / (k*(k-1))`, 0 for degree ≤ 1. -/
def localClustering (g : DiGraph) (v : String) : ℚ :=
  let nb := clustNbrs g v
  let k := nb.length
  if k ≤ 1 then 0
  else
    let t := (nb.map (fun w => (nb.filter (fun x => x ∈ clustNbrs g w)).length)).sum
    (t : ℚ) / ((k : ℚ) * ((k : ℚ) - 1))

/-- networkx `average_clustering` of the undirected projection (the source
only calls it on non-empty graphs; the zero guard keeps the model total). -/
def avgClustering (g : DiGraph) : ℚ :=
  if g.nodes.length = 0 then 0
  else ((g.nodes.map (localClustering g)).sum) / (g.nodes.length : ℚ)

/-- Undirected adjacency, used for weak connectivity. -/
def uAdjacent (g : DiGraph) (v w : String) : Prop :=
  (v, w) ∈ g.edges ∨ (w, v) ∈ g.edges

instance (g : DiGraph) (v w : String) : Decidable (uAdjacent g v w) := by
  unfold uAdjacent; infer_instance

/-- One step of reachability closure inside the node list. -/
def expandComp (g : DiGraph) (s : List String) : List String :=
  g.nodes.filter (fun w => w ∈ s ∨ ∃ u ∈ s, uAdjacent g w u)

def reachIter (g : DiGraph) (s : List String) : ℕ → List String
  | 0 => s
  | n + 1 => reachIter g (expandComp g s) n

/-- Weakly-connected component of `v` (fixed point reached within `n`
iterations). -/
def component (g : DiGraph) (v : String) : List String :=
  reachIter g (g.nodes.filter (fun w => w = v)) g.nodes.length

/-- One representative per weak component: the nodes that come first (in
insertion order) within their own component. -/
def componentReps (g : DiGraph) : List String :=
  g.nodes.filter (fun v => (component g v).head? = some v)

/-- networkx `number_weakly_connected_components`. -/
def weakComponentCount (g : DiGraph) : ℕ :=
  (componentReps g).length

/-- Python `max(xs, key=key)` over naturals: first maximal element. -/
def pyMaxByNat {α : Type} (key : α → ℕ) (xs : List α) : Option α :=
  xs.foldl
    (fun best x =>
      match best with
      | none => some x
      | some b => if key x > key b then some x else some b)
    none

def componentsList (g : DiGraph) : List (List String) :=
  (componentReps g).map (component g)

/-- Source `max(nx.weakly_connected_components(graph), key=len)`. -/
def largestWeakComponent (g : DiGraph) : List String :=
  (pyMaxByNat List.length (componentsList g)).getD []

/-- networkx `Graph.subgraph`. -/
def subgraphOn (g : DiGraph) (s : List String) : DiGraph :=
  { nodes := g.nodes.filter (fun v => v ∈ s)
    edges := g.edges.filter (fun e => e.1 ∈ s ∧ e.2 ∈ s) }

/-- Modelled from the spec: §4.3 and §9 treat betweenness/closeness/
eigenvector centrality, PageRank and the path metrics as supplied by an
external graph library (networkx in the source, outside this repository).
The backend abstracts those library calls; `Except.error` stands for the
library exceptions (`NetworkXError`, `PowerIterationFailedConvergence`)
that the source catches. -/
structure NxBackend where
  betweenness : DiGraph → List (String × ℚ)
  closeness : DiGraph → Except Unit (List (String × ℚ))
  eigenvector : DiGraph → Except Unit (List (String × ℚ))
  pagerank : DiGraph → List (String × ℚ)
  avgShortestPath : DiGraph → Except Unit ℚ
  diameter : DiGraph → Except Unit ℤ

/-- Source `GraphEvaluator._compute_path_metrics`: on a disconnected graph restrict
to the largest weak component; a component of size ≤ 1 gives `(0, 0)`; a
library error gives `(0, 0)`. -/
def computePathMetrics (b : NxBackend) (g : DiGraph) : ℚ × ℤ :=
  if g.nodes.length = 0 then (0, 0)
  else if weakComponentCount g ≠ 1 then
    let sub := subgraphOn g (largestWeakComponent g)
    if sub.nodes.length ≤ 1 then (0, 0)
    else
      match b.avgShortestPath sub, b.diameter sub with
      | Except.ok a, Except.ok d => (a, d)
      | _, _ => (0, 0)
  else
    match b.avgShortestPath g, b.diameter g with
    | Except.ok a, Except.ok d => (a, d)
    | _, _ => (0, 0)

/-- Source `GraphEvaluator._detect_over_centralization`: some node's degree share
`(in+out)/(2m)` exceeds 0.7; false for an empty or edgeless graph. -/
def detectOverCentralization (g : DiGraph) : Bool :=
  if g.nodes.length = 0 then false
  else if g.edges.length = 0 then false
  else
    g.nodes.any
      (fun v => decide ((nxDegree g v : ℚ) / (2 * (g.edges.length : ℚ)) > 7/10))

/-! ## Metric plugin registry (`GraphEvaluator`) -/

/-- A metric value: networkx metrics are per-node float maps, floats or
ints. -/
inductive MVal
  | num (q : ℚ)
  | int (n : ℤ)
  | map (m : List (String × ℚ))
deriving DecidableEq, Repr

/-- Source `GraphMetricPlugin.compute`. -/
def MetricPlugin : Type := DiGraph → MVal

/-- Source `{str(node): 0.0 for node in graph.nodes()}`. -/
def zeroNodeMap (g : DiGraph) : List (String × ℚ) :=
  g.nodes.map (fun v => (v, 0))

/-- Source `ClosenessCentralityPlugin.compute`: `{}` on the empty graph, zero per
node when the library call raises. -/
def closenessPlugin (b : NxBackend) : MetricPlugin := fun g =>
  if g.nodes.length = 0 then MVal.map []
  else
    match b.closeness g with
    | Except.ok m => MVal.map m
    | Except.error _ => MVal.map (zeroNodeMap g)

/-- Source `EigenvectorCentralityPlugin.compute`: `{}` on the empty graph, zero per
node on non-convergence. -/
def eigenvectorPlugin (b : NxBackend) : MetricPlugin := fun g =>
  if g.nodes.length = 0 then MVal.map []
  else
    match b.eigenvector g with
    | Except.ok m => MVal.map m
    | Except.error _ => MVal.map (zeroNodeMap g)

/-- The eight built-in plugins in their registration order
(`GraphEvaluator.__init__`). -/
def builtinPlugins (b : NxBackend) : List (String × MetricPlugin) :=
  [("degree_centrality", fun g => MVal.map (degreeCentralityMap g)),
   ("betweenness_centrality", fun g => MVal.map (b.betweenness g)),
   ("closeness_centrality", closenessPlugin b),
   ("eigenvector_centrality", eigenvectorPlugin b),
   ("pagerank", fun g => MVal.map (b.pagerank g)),
   ("graph_density", fun g => MVal.num (densityValue g)),
   ("clustering_coefficient", fun g => MVal.num (avgClustering g)),
   ("connected_components", fun g => MVal.int (weakComponentCount g))]

/-- Source `GraphEvaluator.register_plugin`: Python dict assignment — update in
place when the name exists, append otherwise. -/
def register_plugin (ps : List (String × MetricPlugin)) (name : String)
    (p : MetricPlugin) : List (String × MetricPlugin) :=
  if ps.any (fun kv => kv.1 = name) then
    ps.map (fun kv => if kv.1 = name then (name, p) else kv)
  else ps ++ [(name, p)]

/-- The `builtin_keys` set of `GraphEvaluator.evaluate`. -/
def builtinKeys : List String :=
  ["degree_centrality", "betweenness_centrality", "closeness_centrality",
   "eigenvector_centrality", "pagerank", "graph_density",
   "clustering_coefficient", "connected_components"]

/-- Source `plugin_results[name]` lookup (Python dict: the single binding per
key). -/
def lookupResult (rs : List (String × MVal)) (k : String) : Option MVal :=
  (rs.find? (fun kv => kv.1 = k)).map Prod.snd

/-- Source `plugin_results.get(key, {})`: Python substitutes the default only when
the key is absent (no type coercion happens — the claims only exercise
well-typed values). -/
def asNodeMap (o : Option MVal) : List (String × ℚ) :=
  match o with
  | some (MVal.map m) => m
  | _ => []

/-- Source `plugin_results.get(key, 0.0)`. -/
def asNum (o : Option MVal) : ℚ :=
  match o with
  | some (MVal.num q) => q
  | _ => 0

/-- Source `plugin_results.get(key, 0)`. -/
def asInt (o : Option MVal) : ℤ :=
  match o with
  | some (MVal.int n) => n
  | _ => 0

/-- Source `GraphMetrics` as returned by `GraphEvaluator.evaluate`
(`green/evals/graph.py`; `extras` holds the `extra="allow"` fields coming
from non-built-in plugins). -/
structure GraphMetricsRec where
  degree_centrality : List (String × ℚ)
  betweenness_centrality : List (String × ℚ)
  closeness_centrality : List (String × ℚ)
  eigenvector_centrality : List (String × ℚ)
  pagerank : List (String × ℚ)
  graph_density : ℚ
  clustering_coefficient : ℚ
  connected_components : ℤ
  average_path_length : ℚ
  diameter : ℤ
  bottlenecks : List String
  isolated_agents : List String
  over_centralized : Bool
  extras : List (String × MVal)
deriving DecidableEq, Repr

/-- Source `GraphEvaluator._empty_metrics`. -/
def emptyGraphMetrics : GraphMetricsRec :=
  { degree_centrality := [], betweenness_centrality := [],
    closeness_centrality := [], eigenvector_centrality := [], pagerank := [],
    graph_density := 0, clustering_coefficient := 0, connected_components := 0,
    average_path_length := 0, diameter := 0, bottlenecks := [],
    isolated_agents := [], over_centralized := false, extras := [] }

/-- Source `GraphEvaluator.evaluate`: run every registered plugin on the built
graph, extract the built-in slots, compute path metrics and findings, and
merge non-built-in plugin results under their registration name. -/
def evaluateGraph (b : NxBackend) (plugins : List (String × MetricPlugin))
    (traces : List InteractionStep) : GraphMetricsRec :=
  if traces.isEmpty then emptyGraphMetrics
  else
    let g := buildGraph traces
    let results := plugins.map (fun kv => (kv.1, kv.2 g))
    let dc := asNodeMap (lookupResult results "degree_centrality")
    let bc := asNodeMap (lookupResult results "betweenness_centrality")
    { degree_centrality := dc
      betweenness_centrality := bc
      closeness_centrality := asNodeMap (lookupResult results "closeness_centrality")
      eigenvector_centrality := asNodeMap (lookupResult results "eigenvector_centrality")
      pagerank := asNodeMap (lookupResult results "pagerank")
      graph_density := asNum (lookupResult results "graph_density")
      clustering_coefficient := asNum (lookupResult results "clustering_coefficient")
      connected_components := asInt (lookupResult results "connected_components")
      average_path_length := (computePathMetrics b g).1
      diameter := (computePathMetrics b g).2
      bottlenecks := (bc.filter (fun kv => kv.2 > 1/2)).map Prod.fst
      isolated_agents := (dc.filter (fun kv => kv.2 = 0)).map Prod.fst
      over_centralized := detectOverCentralization g
      extras := results.filter (fun kv => kv.1 ∉ builtinKeys) }

/-- A concrete backend instance used by closed witnesses: betweenness and
pagerank return the zero map over the nodes, closeness raises, eigenvector
converges to the zero map, and the path algorithms raise. -/
def witnessBackend : NxBackend :=
  { betweenness := zeroNodeMap
    closeness := fun _ => Except.error ()
    eigenvector := fun g => Except.ok (zeroNodeMap g)
    pagerank := zeroNodeMap
    avgShortestPath := fun _ => Except.error ()
    diameter := fun _ => Except.error () }

/-- With only the built-in plugins registered, each built-in field of
`evaluateGraph` on a non-empty trace list is its plugin's output. -/
lemma evaluateGraph_cons_fields (b : NxBackend) (a : InteractionStep)
    (l : List InteractionStep) :
    (evaluateGraph b (builtinPlugins b) (a :: l)).degree_centrality =
        degreeCentralityMap (buildGraph (a :: l)) ∧
    (evaluateGraph b (builtinPlugins b) (a :: l)).betweenness_centrality =
        b.betweenness (buildGraph (a :: l)) ∧
    (evaluateGraph b (builtinPlugins b) (a :: l)).closeness_centrality =
        asNodeMap (some (closenessPlugin b (buildGraph (a :: l)))) ∧
    (evaluateGraph b (builtinPlugins b) (a :: l)).eigenvector_centrality =
        asNodeMap (some (eigenvectorPlugin b (buildGraph (a :: l)))) ∧
    (evaluateGraph b (builtinPlugins b) (a :: l)).pagerank =
        b.pagerank (buildGraph (a :: l)) := by
  refine ⟨rfl, rfl, rfl, rfl, rfl⟩

lemma keys_zeroNodeMap (g : DiGraph) :
    ((zeroNodeMap g).map Prod.fst) = g.nodes := by
  simp [zeroNodeMap, Function.comp_def]

lemma keys_degreeCentralityMap (g : DiGraph) :
    ((degreeCentralityMap g).map Prod.fst) = g.nodes := by
  simp [degreeCentralityMap, Function.comp_def]

/-- C7: For every non-empty step list, with exactly the built-in plugins
registered, the five per-agent centrality maps of the returned metrics all
have key set equal to the node set of the constructed graph — assuming only
the external library's contract that its centrality routines return one
entry per node whenever they return at all (the zero-substitution branches
for closeness/eigenvector failures are covered by the embedded source). -/
theorem centrality_maps_key_sets (b : NxBackend) (traces : List InteractionStep)
    (h : traces ≠ [])
    (hbet : ((b.betweenness (buildGraph traces)).map Prod.fst).toFinset =
      (buildGraph traces).nodes.toFinset)
    (hpr : ((b.pagerank (buildGraph traces)).map Prod.fst).toFinset =
      (buildGraph traces).nodes.toFinset)
    (hclo : ∀ m, b.closeness (buildGraph traces) = Except.ok m →
      (m.map Prod.fst).toFinset = (buildGraph traces).nodes.toFinset)
    (heig : ∀ m, b.eigenvector (buildGraph traces) = Except.ok m →
      (m.map Prod.fst).toFinset = (buildGraph traces).nodes.toFinset) :
    (((evaluateGraph b (builtinPlugins b) traces).degree_centrality.map
        Prod.fst).toFinset = (buildGraph traces).nodes.toFinset) ∧
    (((evaluateGraph b (builtinPlugins b) traces).betweenness_centrality.map
        Prod.fst).toFinset = (buildGraph traces).nodes.toFinset) ∧
    (((evaluateGraph b (builtinPlugins b) traces).closeness_centrality.map
        Prod.fst).toFinset = (buildGraph traces).nodes.toFinset) ∧
    (((evaluateGraph b (builtinPlugins b) traces).eigenvector_centrality.map
        Prod.fst).toFinset = (buildGraph traces).nodes.toFinset) ∧
    (((evaluateGraph b (builtinPlugins b) traces).pagerank.map
        Prod.fst).toFinset = (buildGraph traces).nodes.toFinset) := by
  cases traces with
  | nil => exact absurd rfl h
  | cons a l =>
    obtain ⟨hdc, hbc, hcc, hec, hpc⟩ := evaluateGraph_cons_fields b a l
    set g := buildGraph (a :: l) with hg
    refine ⟨?_, ?_, ?_, ?_, ?_⟩
    · rw [hdc, keys_degreeCentralityMap]
    · rw [hbc]; exact hbet
    · rw [hcc]
      unfold closenessPlugin
      by_cases hz : g.nodes.length = 0
      · simp only [hz, if_pos, asNodeMap]
        simp [List.length_eq_zero.mp hz]
      · simp only [hz, if_neg, if_false]
        cases hm : b.closeness g with
        | ok m => simpa [asNodeMap] using hclo m hm
        | error e => simp [asNodeMap, keys_zeroNodeMap]
    · rw [hec]
      unfold eigenvectorPlugin
      by_cases hz : g.nodes.length = 0
      · simp only [hz, if_pos, asNodeMap]
        simp [List.length_eq_zero.mp hz]
      · simp only [hz, if_neg, if_false]
        cases hm : b.eigenvector g with
        | ok m => simpa [asNodeMap] using heig m hm
        | error e => simp [asNodeMap, keys_zeroNodeMap]
    · rw [hpc]; exact hpr

/-- Witness for C7: the concrete backend on a two-step trace, with the
closeness call failing (zero substitution) and eigenvector succeeding. -/
theorem centrality_maps_key_sets_witness :
    (([mkStep "a", mkStep "b" (some "a")] : List InteractionStep) ≠ []) ∧
    (((evaluateGraph witnessBackend (builtinPlugins witnessBackend)
        [mkStep "a", mkStep "b" (some "a")]).closeness_centrality.map
        Prod.fst).toFinset =
      (buildGraph [mkStep "a", mkStep "b" (some "a")]).nodes.toFinset) := by
  refine ⟨by simp, ?_⟩
  refine (centrality_maps_key_sets witnessBackend
    [mkStep "a", mkStep "b" (some "a")] (by simp) ?_ ?_ ?_ ?_).2.2.1
  · show ((zeroNodeMap _).map Prod.fst).toFinset = _
    rw [keys_zeroNodeMap]
  · show ((zeroNodeMap _).map Prod.fst).toFinset = _
    rw [keys_zeroNodeMap]
  · intro m hm
    simp [witnessBackend] at hm
  · intro m hm
    simp only [witnessBackend] at hm
    injection hm with hm2
    subst hm2
    rw [keys_zeroNodeMap]

/-- Two steps forming the single edge `a → b`; the built graph has 2 nodes
and 1 edge, so the built-in density is 1/2. -/
def precSteps : List InteractionStep := [mkStep "a", mkStep "b" (some "a")]

/-- A custom plugin returning the constant 1/4, registered in the
counterexample under the built-in name "graph_density". -/
def constQuarterPlugin : MetricPlugin := fun _ => MVal.num (1/4)

/-- C6 counterexample: Registering a custom plugin under the built-in
name "graph_density" makes `evaluate` report the custom plugin's value
(1/4), not the built-in density (1/2): `register_plugin` is a plain dict
assignment, so the later registration replaces the built-in plugin, which
never runs. -/
theorem custom_plugin_overrides_builtin_value :
    (evaluateGraph witnessBackend
        (register_plugin (builtinPlugins witnessBackend) "graph_density"
          constQuarterPlugin) precSteps).graph_density = 1/4 ∧
    densityValue (buildGraph precSteps) = 1/2 ∧
    ((1 : ℚ)/4 ≠ 1/2) := by
  refine ⟨rfl, ?_, by norm_num⟩
  show densityValue { nodes := ["a", "b"], edges := [("a", "b")] } = 1/2
  norm_num [densityValue]

/-- C6 amended: A registration under an already-used name replaces the
earlier plugin: on every non-empty step list the value reported under that
name is the custom plugin's value; custom plugins registered under fresh
names appear in the output's extra fields under their registration name. -/
theorem register_plugin_last_registration_wins (b : NxBackend)
    (f : MetricPlugin) (name : String) (traces : List InteractionStep)
    (h : traces ≠ []) (hname : name ∉ builtinKeys) :
    (evaluateGraph b
        (register_plugin (builtinPlugins b) "graph_density" f)
        traces).graph_density = asNum (some (f (buildGraph traces))) ∧
    lookupResult
        (evaluateGraph b (register_plugin (builtinPlugins b) name f)
          traces).extras name = some (f (buildGraph traces)) := by
  cases traces with
  | nil => exact absurd rfl h
  | cons a l =>
    constructor
    · rfl
    · simp only [builtinKeys, List.mem_cons, List.not_mem_nil, or_false,
        not_or] at hname
      obtain ⟨h1, h2, h3, h4, h5, h6, h7, h8⟩ := hname
      have g1 : ("degree_centrality" : String) ≠ name := fun he => h1 he.symm
      have g2 : ("betweenness_centrality" : String) ≠ name := fun he => h2 he.symm
      have g3 : ("closeness_centrality" : String) ≠ name := fun he => h3 he.symm
      have g4 : ("eigenvector_centrality" : String) ≠ name := fun he => h4 he.symm
      have g5 : ("pagerank" : String) ≠ name := fun he => h5 he.symm
      have g6 : ("graph_density" : String) ≠ name := fun he => h6 he.symm
      have g7 : ("clustering_coefficient" : String) ≠ name := fun he => h7 he.symm
      have g8 : ("connected_components" : String) ≠ name := fun he => h8 he.symm
      have hany : (builtinPlugins b).any (fun kv => kv.1 = name) = false := by
        simp [builtinPlugins, g1, g2, g3, g4, g5, g6, g7, g8]
      have hreg : register_plugin (builtinPlugins b) name f =
          builtinPlugins b ++ [(name, f)] := by
        simp [register_plugin, hany]
      rw [hreg]
      show lookupResult
          (((builtinPlugins b ++ [(name, f)]).map
            (fun kv => (kv.1, kv.2 (buildGraph (a :: l))))).filter
            (fun kv => kv.1 ∉ builtinKeys)) name =
        some (f (buildGraph (a :: l)))
      simp only [List.map_append, List.filter_append]
      have hfilter1 :
          (((builtinPlugins b).map
            (fun kv => (kv.1, kv.2 (buildGraph (a :: l))))).filter
            (fun kv => kv.1 ∉ builtinKeys)) = [] := by
        simp [builtinPlugins, builtinKeys]
      have hfilter2 :
          (([(name, f)].map
            (fun kv => (kv.1, kv.2 (buildGraph (a :: l))))).filter
            (fun kv => kv.1 ∉ builtinKeys)) =
          [(name, f (buildGraph (a :: l)))] := by
        simp only [List.map_cons, List.map_nil, List.filter_cons]
        rw [if_pos]
        · simp
        · simp only [builtinKeys, List.mem_cons, List.not_mem_nil, or_false,
            not_or, decide_eq_true_eq]
          exact ⟨h1, h2, h3, h4, h5, h6, h7, h8⟩
      rw [hfilter1, hfilter2]
      simp [lookupResult]

/-- Witness for C6 (amended): with a fresh name "my_metric" and the constant
plugin, the reported "graph_density" is the custom 1/4 and the extra field
"my_metric" carries the plugin's value. -/
theorem register_plugin_last_registration_wins_witness :
    (precSteps ≠ []) ∧ ("my_metric" ∉ builtinKeys) ∧
    (evaluateGraph witnessBackend
        (register_plugin (builtinPlugins witnessBackend) "graph_density"
          constQuarterPlugin) precSteps).graph_density =
      asNum (some (constQuarterPlugin (buildGraph precSteps))) ∧
    lookupResult
        (evaluateGraph witnessBackend
          (register_plugin (builtinPlugins witnessBackend) "my_metric"
            constQuarterPlugin) precSteps).extras "my_metric" =
      some (constQuarterPlugin (buildGraph precSteps)) := by
  refine ⟨by simp [precSteps], by simp [builtinKeys], ?_⟩
  exact register_plugin_last_registration_wins witnessBackend
    constQuarterPlugin "my_metric" precSteps (by simp [precSteps])
    (by simp [builtinKeys])

/-- Duplicate step identifiers with self-referencing parents: the built
graph has nodes {a, b} and the four edges (a,a), (b,b), (a,b), (b,a). -/
def selfLoopSteps : List InteractionStep :=
  [mkStep "a" (some "a"), mkStep "b" (some "b"),
   mkStep "b" (some "a"), mkStep "a" (some "b")]

/-- C8: On a step list whose self-loop edges make `m = 4` with `n = 2`,
the evaluator reports `graph_density = 4 / (2*1) = 2 > 1`: networkx
`density` does not account for self-loops, contradicting the claimed (and
documented, `graph.py` docstring "0-1" and `green/models.py` bound
`le=1.0`) range. -/
theorem graph_density_exceeds_one_on_self_loops :
    (evaluateGraph witnessBackend (builtinPlugins witnessBackend)
        selfLoopSteps).graph_density = 2 ∧
    ¬ ((2 : ℚ) ≤ 1) := by
  constructor
  · show asNum (some (MVal.num (densityValue (buildGraph selfLoopSteps)))) = 2
    show densityValue (buildGraph selfLoopSteps) = 2
    show densityValue
        { nodes := ["a", "b"],
          edges := [("a", "a"), ("b", "b"), ("a", "b"), ("b", "a")] } = 2
    norm_num [densityValue]
  · norm_num

/-! ## Tiered evaluation orchestrator (`green/executor.py`, `Executor`) -/

/-- The value an evaluator's `evaluate` may return, with just enough
structure for `evaluate_all`'s `hasattr(_, "model_dump")` / `isinstance(_,
dict)` dispatch: a pydantic model (the graph evaluator's `GraphMetrics`), a
plain dict, or anything else. -/
inductive PyVal
  | model (m : GraphMetricsRec)
  | dict (kvs : List (String × String))
  | other
deriving DecidableEq, Repr

/-- The `tier1_graph` slot after `evaluate_all`'s conversion: a dumped
pydantic model, or a raw dict (the `{"error": msg}` marker). -/
inductive Tier1Graph
  | dump (m : GraphMetricsRec)
  | rawDict (kvs : List (String × String))
deriving DecidableEq, Repr

/-- A tier-2 slot: the evaluator's result, or the `{"error": msg}` marker
produced when its `evaluate` raised. -/
inductive EvalSlot
  | result (v : PyVal)
  | errDict (msg : String)
deriving DecidableEq, Repr

/-- An evaluator handed to `evaluate_all`: `none` models passing `None`,
otherwise its `evaluate` coroutine, which returns a value or raises. -/
def GraphEvaluatorFn : Type := List InteractionStep → Except String PyVal

/-- The LLM judge additionally receives `graph_results` as context
(`llm_judge.evaluate(traces, graph_results=...)`). -/
def LLMJudgeFn : Type := List InteractionStep → Option Tier1Graph → Except String PyVal

def LatencyEvaluatorFn : Type := List InteractionStep → Except String PyVal

/-- Source `Executor._evaluate_graph`: `None` evaluator gives `None`; a raised
exception becomes the `{"error": str(e)}` dict. -/
def evaluate_graph_tier (gEv : Option GraphEvaluatorFn)
    (traces : List InteractionStep) : Option PyVal :=
  match gEv with
  | none => none
  | some f =>
    match f traces with
    | Except.ok v => some v
    | Except.error m => some (PyVal.dict [("error", m)])

/-- The tier-1 conversion in `evaluate_all`: `model_dump()` a pydantic
result, keep a dict as-is, anything else becomes `None`. -/
def tier1Convert (o : Option PyVal) : Option Tier1Graph :=
  match o with
  | some (PyVal.model m) => some (Tier1Graph.dump m)
  | some (PyVal.dict kvs) => some (Tier1Graph.rawDict kvs)
  | _ => none

/-- Source `Executor._evaluate_llm`. -/
def evaluate_llm_tier (lEv : Option LLMJudgeFn) (traces : List InteractionStep)
    (graph_results : Option Tier1Graph) : Option EvalSlot :=
  match lEv with
  | none => none
  | some f =>
    match f traces graph_results with
    | Except.ok v => some (EvalSlot.result v)
    | Except.error m => some (EvalSlot.errDict m)

/-- Source `Executor._evaluate_latency_tier2`. -/
def evaluate_latency_tier (latEv : Option LatencyEvaluatorFn)
    (traces : List InteractionStep) : Option EvalSlot :=
  match latEv with
  | none => none
  | some f =>
    match f traces with
    | Except.ok v => some (EvalSlot.result v)
    | Except.error m => some (EvalSlot.errDict m)

/-- The report of `Executor.evaluate_all`: always the three slots. -/
structure EvalReport where
  tier1_graph : Option Tier1Graph
  tier2_llm : Option EvalSlot
  tier2_latency : Option EvalSlot
deriving DecidableEq, Repr

/-- Source `Executor.evaluate_all`: tier 1 (graph), conversion, then tier 2 (LLM
with the converted tier-1 result as context, and latency). -/
def evaluate_all (traces : List InteractionStep) (gEv : Option GraphEvaluatorFn)
    (lEv : Option LLMJudgeFn) (latEv : Option LatencyEvaluatorFn) : EvalReport :=
  let tier1_graph := tier1Convert (evaluate_graph_tier gEv traces)
  { tier1_graph := tier1_graph
    tier2_llm := evaluate_llm_tier lEv traces tier1_graph
    tier2_latency := evaluate_latency_tier latEv traces }

/-- C1: `evaluate_all` always returns a report with the three slots (it
is a total function of the embedded evaluators — every exception of an
evaluator is caught); the tier-2 slots are populated exactly when their
evaluators are provided, each by running its own evaluator on the step
list; and when the provided graph evaluator raises with message `m`,
`tier1_graph` is the `{"error": m}` dict while the tier-2 evaluators still
run as usual. -/
theorem evaluate_all_isolates_graph_failure
    (traces : List InteractionStep) (gf : GraphEvaluatorFn)
    (lEv : Option LLMJudgeFn) (latEv : Option LatencyEvaluatorFn)
    (m : String) (hraise : gf traces = Except.error m) :
    ((evaluate_all traces (some gf) lEv latEv).tier2_llm.isSome ↔ lEv.isSome) ∧
    ((evaluate_all traces (some gf) lEv latEv).tier2_latency.isSome ↔
      latEv.isSome) ∧
    (evaluate_all traces (some gf) lEv latEv).tier1_graph =
      some (Tier1Graph.rawDict [("error", m)]) ∧
    (∀ lf, lEv = some lf →
      (evaluate_all traces (some gf) lEv latEv).tier2_llm =
        some (match lf traces (some (Tier1Graph.rawDict [("error", m)])) with
          | Except.ok v => EvalSlot.result v
          | Except.error e => EvalSlot.errDict e)) ∧
    (∀ latf, latEv = some latf →
      (evaluate_all traces (some gf) lEv latEv).tier2_latency =
        some (match latf traces with
          | Except.ok v => EvalSlot.result v
          | Except.error e => EvalSlot.errDict e)) := by
  have htier1 : (evaluate_all traces (some gf) lEv latEv).tier1_graph =
      some (Tier1Graph.rawDict [("error", m)]) := by
    simp [evaluate_all, evaluate_graph_tier, hraise, tier1Convert]
  refine ⟨?_, ?_, htier1, ?_, ?_⟩
  · cases lEv with
    | none => simp [evaluate_all, evaluate_llm_tier]
    | some lf =>
      simp only [evaluate_all, evaluate_llm_tier, Option.isSome_some,
        iff_true]
      cases lf traces (tier1Convert (evaluate_graph_tier (some gf) traces)) <;>
        simp
  · cases latEv with
    | none => simp [evaluate_all, evaluate_latency_tier]
    | some latf =>
      simp only [evaluate_all, evaluate_latency_tier, Option.isSome_some,
        iff_true]
      cases latf traces <;> simp
  · rintro lf rfl
    simp only [evaluate_all, evaluate_llm_tier, evaluate_graph_tier, hraise,
      tier1Convert]
    cases lf traces (some (Tier1Graph.rawDict [("error", m)])) <;> rfl
  · rintro latf rfl
    simp only [evaluate_all, evaluate_latency_tier]
    cases latf traces <;> rfl

/-- Witness for C1: a graph evaluator that raises "boom", an LLM judge and a
latency evaluator that return values; all three slots are populated. -/
theorem evaluate_all_isolates_graph_failure_witness :
    ((fun _ => Except.error "boom" : GraphEvaluatorFn) [] =
      Except.error "boom") ∧
    (evaluate_all [] (some (fun _ => Except.error "boom"))
        (some (fun _ _ => Except.ok PyVal.other))
        (some (fun _ => Except.ok PyVal.other))).tier1_graph =
      some (Tier1Graph.rawDict [("error", "boom")]) ∧
    (evaluate_all [] (some (fun _ => Except.error "boom"))
        (some (fun _ _ => Except.ok PyVal.other))
        (some (fun _ => Except.ok PyVal.other))).tier2_llm =
      some (EvalSlot.result PyVal.other) ∧
    (evaluate_all [] (some (fun _ => Except.error "boom"))
        (some (fun _ _ => Except.ok PyVal.other))
        (some (fun _ => Except.ok PyVal.other))).tier2_latency =
      some (EvalSlot.result PyVal.other) := by
  have h := evaluate_all_isolates_graph_failure []
    (fun _ => Except.error "boom")
    (some (fun _ _ => Except.ok PyVal.other))
    (some (fun _ => Except.ok PyVal.other)) "boom" rfl
  exact ⟨rfl, h.2.2.1, h.2.2.2.1 _ rfl, h.2.2.2.2 _ rfl⟩

/-! ## Trace collection (`green/executor.py`) -/

/-- A JSON value, the result of `json.loads` on a response payload. -/
inductive JValue
  | jnull
  | jbool (b : Bool)
  | jnum (n : ℤ)
  | jstr (s : String)
  | jarr (xs : List JValue)
  | jobj (fields : List (String × JValue))

/-- Source `dict.get(key)` on an object decoded by `json.loads` (duplicate JSON
keys: the last occurrence wins). -/
def jsonGet (fields : List (String × JValue)) (k : String) : Option JValue :=
  (fields.reverse.find? (fun kv => kv.1 = k)).map Prod.snd

/-- Source `_is_complete` (`executor.py:24`): the payload parses to a dict whose
"status" equals "complete"; `none` models a payload `json.loads` rejects
(malformed / non-JSON), which yields `False` rather than raising. -/
def isComplete (payload : Option JValue) : Bool :=
  match payload with
  | some (JValue.jobj fields) =>
    match jsonGet fields "status" with
    | some (JValue.jstr s) => s = "complete"
    | _ => false
  | _ => false

/-- Source `common/models.py`, `TraceCollectionConfig` (seconds as rationals). -/
structure TraceCollectionConfig where
  max_timeout_seconds : ℚ := 30
  idle_threshold_seconds : ℚ := 5
  use_completion_signals : Bool := true
deriving DecidableEq, Repr

/-- Behaviour of one `messenger.send_message` call: the environment either
delivers a response payload after `elapsed` seconds, or raises a transport
error after `elapsed` seconds.  Under `asyncio.wait_for`, an outcome whose
`elapsed` exceeds the per-round timeout is seen as a `TimeoutError`
instead. -/
inductive PeerResult
  | reply (payload : Option JValue) (elapsed : ℚ)
  | raise (msg : String) (elapsed : ℚ)

/-- Result of adaptive collection plus the number of `send_message` calls
made. -/
structure AdaptiveResult where
  traces : List InteractionStep
  sends : ℕ
deriving DecidableEq, Repr

/-- The loop body of `Executor._adaptive_execute`, peeled by `fuel` (the
source loop terminates because wall-clock time advances towards the
deadline; claims supply sufficient fuel explicitly).  `peer i` is the
behaviour of the `(i+1)`-th send; `mkId i` models the `uuid4()` drawn for
round `i`. -/
def adaptiveLoop (cfg : TraceCollectionConfig) (peer : ℕ → PeerResult)
    (mkId : ℕ → String) (traceId : String) (deadline : ℚ) :
    ℚ → Option String → List InteractionStep → ℕ → ℕ → ℕ →
    Except String AdaptiveResult
  | _, _, acc, sends, _, 0 => Except.ok ⟨acc, sends⟩
  | now, prev, acc, sends, roundNum, fuel + 1 =>
    let remaining := deadline - now
    if remaining ≤ 0 then Except.ok ⟨acc, sends⟩
    else
      let perMsgTimeout := pyMin cfg.idle_threshold_seconds remaining
      match peer sends with
      | PeerResult.raise msg elapsed =>
        if elapsed > perMsgTimeout then Except.ok ⟨acc, sends + 1⟩
        else Except.error msg
      | PeerResult.reply payload elapsed =>
        if elapsed > perMsgTimeout then Except.ok ⟨acc, sends + 1⟩
        else
          let endTime := now + elapsed
          let stepId := mkId roundNum
          let step : InteractionStep :=
            { step_id := stepId, trace_id := traceId,
              call_type := CallType.AGENT, start_time := now,
              end_time := endTime,
              latency := some (Rat.floor (elapsed * 1000)),
              error := none, parent_step_id := prev }
          let acc2 := acc ++ [step]
          if cfg.use_completion_signals && isComplete payload then
            Except.ok ⟨acc2, sends + 1⟩
          else
            adaptiveLoop cfg peer mkId traceId deadline endTime (some stepId)
              acc2 (sends + 1) (roundNum + 1) fuel

/-- Source `Executor._adaptive_execute` (time starts at 0, so the deadline is
`max_timeout_seconds`). -/
def adaptiveExecute (cfg : TraceCollectionConfig) (peer : ℕ → PeerResult)
    (mkId : ℕ → String) (traceId : String) (fuel : ℕ) :
    Except String AdaptiveResult :=
  adaptiveLoop cfg peer mkId traceId cfg.max_timeout_seconds 0 none [] 0 0 fuel

/-- The loop of `Executor._fixed_execute`: `rounds` sequential sends with an
inter-round delay, each raising send propagating; no per-round timeout. -/
def fixedLoop (delay : ℚ) (peer : ℕ → PeerResult) (mkId : ℕ → String)
    (traceId : String) :
    ℕ → ℕ → ℚ → Option String → List InteractionStep →
    Except String (List InteractionStep)
  | 0, _, _, _, acc => Except.ok acc
  | n + 1, i, now, prev, acc =>
    match peer i with
    | PeerResult.raise msg _ => Except.error msg
    | PeerResult.reply _ elapsed =>
      let endTime := now + elapsed
      let stepId := mkId i
      let step : InteractionStep :=
        { step_id := stepId, trace_id := traceId,
          call_type := CallType.AGENT, start_time := now, end_time := endTime,
          latency := some (Rat.floor (elapsed * 1000)),
          error := none, parent_step_id := prev }
      let now2 := if n = 0 then endTime else endTime + delay
      fixedLoop delay peer mkId traceId n (i + 1) now2 (some stepId)
        (acc ++ [step])

/-- Source `Executor._fixed_execute`. -/
def fixedExecute (rounds : ℕ) (delay : ℚ) (peer : ℕ → PeerResult)
    (mkId : ℕ → String) (traceId : String) :
    Except String (List InteractionStep) :=
  fixedLoop delay peer mkId traceId rounds 0 0 none []

/-- The messenger as seen by the executor: the behaviour of its sends plus
how many times `close()` has run (`green/messenger.py`: `close()` closes
and clears all cached clients). -/
structure MessengerState where
  peer : ℕ → PeerResult
  closeCalls : ℕ

/-- Source `Messenger.close`. -/
def closeMessenger (m : MessengerState) : MessengerState :=
  { m with closeCalls := m.closeCalls + 1 }

/-- The collection body `execute_task` dispatches to: adaptive when a
`TraceCollectionConfig` is set, fixed-rounds otherwise. -/
def collectBody (cfg : Option TraceCollectionConfig) (rounds : ℕ) (delay : ℚ)
    (peer : ℕ → PeerResult) (mkId : ℕ → String) (traceId : String)
    (fuel : ℕ) : Except String (List InteractionStep) :=
  match cfg with
  | some c => (adaptiveExecute c peer mkId traceId fuel).map AdaptiveResult.traces
  | none => fixedExecute rounds delay peer mkId traceId

/-- Source `Executor.execute_task`: `try: <collect> finally: await
messenger.close()` — the body's outcome (value or exception) is returned
unchanged, and `close()` runs exactly once on the way out. -/
def execute_task (cfg : Option TraceCollectionConfig) (rounds : ℕ) (delay : ℚ)
    (m : MessengerState) (mkId : ℕ → String) (traceId : String) (fuel : ℕ) :
    Except String (List InteractionStep) × MessengerState :=
  match collectBody cfg rounds delay m.peer mkId traceId fuel with
  | Except.ok steps => (Except.ok steps, closeMessenger m)
  | Except.error e => (Except.error e, closeMessenger m)

/-- C4: With `max_timeout_seconds > 0` and `use_completion_signals =
true`, if the very first send is answered within the per-round timeout by a
structured "complete" signal, adaptive collection stops after recording
exactly one step (with null `parent_step_id`) having called the peer
exactly once; and `_is_complete` treats malformed (non-JSON) and non-object
payloads as "not complete" without raising. -/
theorem adaptive_first_complete_one_step (cfg : TraceCollectionConfig)
    (peer : ℕ → PeerResult) (mkId : ℕ → String) (traceId : String)
    (fuel : ℕ) (p : Option JValue) (t : ℚ)
    (hmax : 0 < cfg.max_timeout_seconds)
    (hsig : cfg.use_completion_signals = true)
    (hpeer : peer 0 = PeerResult.reply p t)
    (ht : t ≤ pyMin cfg.idle_threshold_seconds cfg.max_timeout_seconds)
    (hcomp : isComplete p = true) :
    adaptiveExecute cfg peer mkId traceId (fuel + 1) =
      Except.ok
        { traces := [{ step_id := mkId 0, trace_id := traceId,
                       call_type := CallType.AGENT, start_time := 0,
                       end_time := t,
                       latency := some (Rat.floor (t * 1000)), error := none,
                       parent_step_id := none }],
          sends := 1 } ∧
    isComplete none = false ∧
    (∀ v : JValue, (∀ fields, v ≠ JValue.jobj fields) →
      isComplete (some v) = false) := by
  refine ⟨?_, rfl, ?_⟩
  · unfold adaptiveExecute adaptiveLoop
    simp only [sub_zero]
    rw [if_neg (not_le.mpr hmax), hpeer]
    simp only [gt_iff_lt, not_lt.mpr ht, if_false, hsig, hcomp,
      Bool.true_and, if_true, zero_add, List.nil_append]
  · intro v hv
    cases v with
    | jobj fields => exact absurd rfl (hv fields)
    | jnull => rfl
    | jbool b => rfl
    | jnum n => rfl
    | jstr s => rfl
    | jarr xs => rfl

/-- Witness for C4: idle threshold 5 s, hard timeout 1 s, a peer whose first
reply after 0.5 s is `{"status": "complete"}`. -/
theorem adaptive_first_complete_one_step_witness :
    adaptiveExecute
        { max_timeout_seconds := 1, idle_threshold_seconds := 5,
          use_completion_signals := true }
        (fun _ => PeerResult.reply
          (some (JValue.jobj [("status", JValue.jstr "complete")])) (1/2))
        (fun i => toString i) "tr" 3 =
      Except.ok
        { traces := [{ step_id := "0", trace_id := "tr",
                       call_type := CallType.AGENT, start_time := 0,
                       end_time := 1/2,
                       latency := some (Rat.floor ((1:ℚ)/2 * 1000)),
                       error := none,
                       parent_step_id := none }],
          sends := 1 } := by
  have h := adaptive_first_complete_one_step
    { max_timeout_seconds := 1, idle_threshold_seconds := 5,
      use_completion_signals := true }
    (fun _ => PeerResult.reply
      (some (JValue.jobj [("status", JValue.jstr "complete")])) (1/2))
    (fun i => toString i) "tr" 2 (some (JValue.jobj [("status",
      JValue.jstr "complete")])) (1/2)
    (by norm_num) rfl rfl (by norm_num [pyMin]) (by rfl)
  simpa using h.1

/-- C5: On every exit path of `execute_task` — normal return of either
collection mode, graceful stop, or a raising send — `messenger.close()`
runs exactly once, and a transport error raised by the underlying send
propagates to the caller unchanged (after the close). -/
theorem execute_task_always_closes (cfg : Option TraceCollectionConfig)
    (rounds : ℕ) (delay : ℚ) (m : MessengerState) (mkId : ℕ → String)
    (traceId : String) (fuel : ℕ) :
    ((execute_task cfg rounds delay m mkId traceId fuel).2.closeCalls =
      m.closeCalls + 1) ∧
    (∀ e, collectBody cfg rounds delay m.peer mkId traceId fuel =
        Except.error e →
      (execute_task cfg rounds delay m mkId traceId fuel).1 =
        Except.error e) ∧
    (∀ steps, collectBody cfg rounds delay m.peer mkId traceId fuel =
        Except.ok steps →
      (execute_task cfg rounds delay m mkId traceId fuel).1 =
        Except.ok steps) := by
  refine ⟨?_, ?_, ?_⟩
  · unfold execute_task
    cases collectBody cfg rounds delay m.peer mkId traceId fuel <;>
      simp [closeMessenger]
  · intro e he
    unfold execute_task
    rw [he]
  · intro steps hs
    unfold execute_task
    rw [hs]

/-- Adaptive configuration used by the C5 witness. -/
def raiseCfg : TraceCollectionConfig :=
  { max_timeout_seconds := 10, idle_threshold_seconds := 5,
    use_completion_signals := true }

/-- A messenger whose every send raises a transport error immediately. -/
def raisingMessenger : MessengerState :=
  { peer := fun _ => PeerResult.raise "conn reset" 0, closeCalls := 0 }

/-- Witness for C5: a peer whose first send raises "conn reset" makes
adaptive collection abort with that error, which `execute_task` propagates
after the close has run. -/
theorem execute_task_always_closes_witness :
    ((execute_task (some raiseCfg) 3 (1/10) raisingMessenger
        (fun i => toString i) "tr" 4).2.closeCalls = 1) ∧
    ((execute_task (some raiseCfg) 3 (1/10) raisingMessenger
        (fun i => toString i) "tr" 4).1 = Except.error "conn reset") := by
  have h := execute_task_always_closes (some raiseCfg) 3 (1/10)
    raisingMessenger (fun i => toString i) "tr" 4
  refine ⟨h.1, h.2.1 "conn reset" ?_⟩
  unfold collectBody adaptiveExecute adaptiveLoop
  norm_num [pyMin, raiseCfg, raisingMessenger]
  rfl

/-! ## Trace store (`green/trace_store.py`)

Every operation runs under the store's single mutex, so a sequence of
operations is modelled as a fold; the Python `set` of registered agents is
modelled as a duplicate-free list (`set.add` inserts only when absent,
`set.discard` removes). -/

structure TraceStoreState where
  traces : List InteractionStep
  registered_agents : List String
deriving DecidableEq, Repr

def emptyTraceStore : TraceStoreState :=
  { traces := [], registered_agents := [] }

/-- Source `TraceStore.add_traces`. -/
def add_traces (s : TraceStoreState) (ts : List InteractionStep) :
    TraceStoreState :=
  { s with traces := s.traces ++ ts }

/-- Source `TraceStore.register_agent`: `set.add`. -/
def register_agent (s : TraceStoreState) (url : String) : TraceStoreState :=
  if url ∈ s.registered_agents then s
  else { s with registered_agents := s.registered_agents ++ [url] }

/-- Source `TraceStore.unregister_agent`: `set.discard`. -/
def unregister_agent (s : TraceStoreState) (url : String) : TraceStoreState :=
  { s with registered_agents := s.registered_agents.filter (fun u => u ≠ url) }

/-- Source `TraceStore.get_registered_agents`: a snapshot list of the set. -/
def get_registered_agents (s : TraceStoreState) : List String :=
  s.registered_agents

/-- One registry operation. -/
inductive RegistryOp
  | reg (url : String)
  | unreg (url : String)
deriving DecidableEq, Repr

def applyRegistryOps (s : TraceStoreState) (ops : List RegistryOp) :
    TraceStoreState :=
  ops.foldl
    (fun s op =>
      match op with
      | RegistryOp.reg u => register_agent s u
      | RegistryOp.unreg u => unregister_agent s u)
    s

lemma register_agent_nodup (s : TraceStoreState) (u : String)
    (h : s.registered_agents.Nodup) :
    (register_agent s u).registered_agents.Nodup := by
  unfold register_agent
  by_cases hm : u ∈ s.registered_agents
  · simpa [hm] using h
  · simp only [hm, if_neg, if_false]
    simpa [List.nodup_append] using ⟨h, hm⟩

lemma unregister_agent_nodup (s : TraceStoreState) (u : String)
    (h : s.registered_agents.Nodup) :
    (unregister_agent s u).registered_agents.Nodup := by
  unfold unregister_agent
  exact h.filter _

lemma applyRegistryOps_nodup (ops : List RegistryOp) (s : TraceStoreState)
    (h : s.registered_agents.Nodup) :
    (applyRegistryOps s ops).registered_agents.Nodup := by
  induction ops generalizing s with
  | nil => exact h
  | cons op l ih =>
    cases op with
    | reg u => exact ih _ (register_agent_nodup s u h)
    | unreg u => exact ih _ (unregister_agent_nodup s u h)

lemma register_agent_of_mem (s : TraceStoreState) (u : String)
    (h : u ∈ s.registered_agents) : register_agent s u = s := by
  simp [register_agent, h]

lemma register_agent_mem_self (s : TraceStoreState) (u : String) :
    u ∈ (register_agent s u).registered_agents := by
  unfold register_agent
  by_cases hm : u ∈ s.registered_agents <;> simp [hm]

lemma applyRegistryOps_replicate_reg (m : ℕ) (s : TraceStoreState)
    (u : String) (h : u ∈ s.registered_agents) :
    applyRegistryOps s (List.replicate m (RegistryOp.reg u)) = s := by
  induction m generalizing s with
  | zero => rfl
  | succ k ih =>
    show applyRegistryOps (register_agent s u)
        (List.replicate k (RegistryOp.reg u)) = s
    rw [register_agent_of_mem s u h]
    exact ih s h

lemma register_agent_count_one (s : TraceStoreState) (u : String)
    (h : s.registered_agents.Nodup) :
    (register_agent s u).registered_agents.count u = 1 := by
  unfold register_agent
  by_cases hm : u ∈ s.registered_agents
  · simp only [hm, if_pos]
    exact List.count_eq_one_of_mem h hm
  · simp only [hm, if_neg, if_false]
    rw [List.count_append, List.count_eq_zero_of_not_mem hm]
    simp

/-- C9: After any sequence of register/unregister operations from the
empty store, the snapshot returned by `get_registered_agents` holds each
URL at most once (it is duplicate-free); and n ≥ 1 consecutive
registrations of the same URL (with no intervening unregister of it) leave
exactly one registered entry for that URL. -/
theorem registered_agents_deduplicated (ops : List RegistryOp) (u : String)
    (n : ℕ) (hn : 1 ≤ n) :
    (get_registered_agents (applyRegistryOps emptyTraceStore ops)).Nodup ∧
    (get_registered_agents
        (applyRegistryOps emptyTraceStore
          (ops ++ List.replicate n (RegistryOp.reg u)))).count u = 1 := by
  have hnodup0 : (applyRegistryOps emptyTraceStore ops).registered_agents.Nodup :=
    applyRegistryOps_nodup ops emptyTraceStore (by simp [emptyTraceStore])
  refine ⟨hnodup0, ?_⟩
  obtain ⟨m, rfl⟩ : ∃ m, n = m + 1 := ⟨n - 1, (Nat.succ_pred_eq_of_pos hn).symm⟩
  set s0 := applyRegistryOps emptyTraceStore ops with hs0
  have happ : applyRegistryOps emptyTraceStore
      (ops ++ List.replicate (m + 1) (RegistryOp.reg u)) =
      applyRegistryOps s0 (List.replicate (m + 1) (RegistryOp.reg u)) := by
    unfold applyRegistryOps
    rw [List.foldl_append]
    rfl
  rw [happ]
  have hone : applyRegistryOps s0 (List.replicate (m + 1) (RegistryOp.reg u)) =
      register_agent s0 u := by
    show applyRegistryOps (register_agent s0 u)
        (List.replicate m (RegistryOp.reg u)) = register_agent s0 u
    exact applyRegistryOps_replicate_reg m _ u (register_agent_mem_self s0 u)
  rw [hone]
  exact register_agent_count_one s0 u hnodup0

/-- Witness for C9: register the same URL three times after an unrelated
register/unregister pair — one entry remains. -/
theorem registered_agents_deduplicated_witness :
    (1 ≤ 3) ∧
    (get_registered_agents
        (applyRegistryOps emptyTraceStore
          ([RegistryOp.reg "http://x:1", RegistryOp.unreg "http://y:2"] ++
            List.replicate 3 (RegistryOp.reg "http://a:8000")))).count
      "http://a:8000" = 1 :=
  ⟨by norm_num,
   (registered_agents_deduplicated
     [RegistryOp.reg "http://x:1", RegistryOp.unreg "http://y:2"]
     "http://a:8000" 3 (by norm_num)).2⟩

/-! ## Latency metrics (`green/evals/system.py`) -/

structure LatencyMetricsRec where
  avg : ℚ
  p50 : ℚ
  p95 : ℚ
  p99 : ℚ
  slowest_agent : Option String
  warning : String
deriving DecidableEq, Repr

def latencyWarning : String :=
  "Latency values only comparable within same system/run"

/-- Source `system.py`, `_empty_metrics`. -/
def emptyLatencyMetrics : LatencyMetricsRec :=
  { avg := 0, p50 := 0, p95 := 0, p99 := 0, slowest_agent := none,
    warning := latencyWarning }

/-- Source `statistics.mean` over the integer latencies. -/
def listMean (xs : List ℤ) : ℚ :=
  (xs.sum : ℚ) / (xs.length : ℚ)

/-- Source `statistics.median` on already-sorted data. -/
def medianSorted (xs : List ℤ) : ℚ :=
  let n := xs.length
  if n % 2 = 1 then (xs.getD (n / 2) 0 : ℚ)
  else ((xs.getD (n / 2 - 1) 0 : ℚ) + (xs.getD (n / 2) 0 : ℚ)) / 2

/-- Source `statistics.quantiles(data, n=100)[i-1]` with the default exclusive
method, on sorted data of length ≥ 2: `j = clamp(i*(ld+1)//100, 1, ld-1)`,
`delta = i*(ld+1) - j*100`, then linear interpolation between `data[j-1]`
and `data[j]`. -/
def quantileExclusive (xs : List ℤ) (i : ℕ) : ℚ :=
  let ld := xs.length
  let m := ld + 1
  let j0 := i * m / 100
  let j := if j0 < 1 then 1 else if j0 > ld - 1 then ld - 1 else j0
  let delta : ℤ := (i * m : ℤ) - (j * 100 : ℤ)
  ((xs.getD (j - 1) 0 : ℚ) * ((100 : ℚ) - (delta : ℚ)) +
    (xs.getD j 0 : ℚ) * (delta : ℚ)) / 100

/-- Python `max(steps, key=lambda s: s.latency or 0)`: first maximal
element. -/
def pyMaxByLatency (xs : List InteractionStep) : Option InteractionStep :=
  xs.foldl
    (fun best x =>
      match best with
      | none => some x
      | some b => if latencyOrZero x > latencyOrZero b then some x else some b)
    none

/-- The `slowest_agent` computation of `evaluate_latency`: restrict to the
steps with a non-null latency, `None` when there are none, else the
`step_id` of the first step of maximal latency. -/
def slowestAgent (steps : List InteractionStep) : Option String :=
  let withLat := steps.filter (fun s => s.latency.isSome)
  if withLat.isEmpty then none
  else (pyMaxByLatency withLat).map (fun s => s.step_id)

/-- Source `system.py`, `evaluate_latency`. -/
def evaluate_latency (steps : List InteractionStep) : LatencyMetricsRec :=
  if steps.isEmpty then emptyLatencyMetrics
  else
    let latencies := steps.filterMap (fun s => s.latency)
    if latencies.isEmpty then emptyLatencyMetrics
    else
      let sorted := latencies.insertionSort (· ≤ ·)
      { avg := listMean latencies
        p50 := medianSorted sorted
        p95 := if 1 < sorted.length then quantileExclusive sorted 95
               else (sorted.getD 0 0 : ℚ)
        p99 := if 1 < sorted.length then quantileExclusive sorted 99
               else (sorted.getD 0 0 : ℚ)
        slowest_agent := slowestAgent steps
        warning := latencyWarning }

lemma pyMaxByLatency_go (xs : List InteractionStep) (b : InteractionStep) :
    ∃ x, (x = b ∨ x ∈ xs) ∧
      (xs.foldl
        (fun best y =>
          match best with
          | none => some y
          | some c =>
            if latencyOrZero y > latencyOrZero c then some y else some c)
        (some b)) = some x ∧
      latencyOrZero b ≤ latencyOrZero x ∧
      ∀ y ∈ xs, latencyOrZero y ≤ latencyOrZero x := by
  induction xs generalizing b with
  | nil => exact ⟨b, Or.inl rfl, rfl, le_refl _, by simp⟩
  | cons a l ih =>
    simp only [List.foldl_cons]
    by_cases hab : latencyOrZero a > latencyOrZero b
    · obtain ⟨x, hx, heq, hba, hall⟩ := ih a
      refine ⟨x, ?_, by simpa [hab] using heq, le_trans (le_of_lt hab) hba, ?_⟩
      · rcases hx with rfl | hx
        · exact Or.inr (List.mem_cons_self _ _)
        · exact Or.inr (List.mem_cons_of_mem _ hx)
      · intro y hy
        rcases List.mem_cons.mp hy with rfl | hy
        · exact hba
        · exact hall y hy
    · obtain ⟨x, hx, heq, hbb, hall⟩ := ih b
      refine ⟨x, ?_, by simpa [hab] using heq, hbb, ?_⟩
      · rcases hx with rfl | hx
        · exact Or.inl rfl
        · exact Or.inr (List.mem_cons_of_mem _ hx)
      · intro y hy
        rcases List.mem_cons.mp hy with rfl | hy
        · exact le_trans (not_lt.mp hab) hbb
        · exact hall y hy

lemma pyMaxByLatency_spec (xs : List InteractionStep) (h : xs ≠ []) :
    ∃ x ∈ xs, pyMaxByLatency xs = some x ∧
      ∀ y ∈ xs, latencyOrZero y ≤ latencyOrZero x := by
  cases xs with
  | nil => exact absurd rfl h
  | cons a l =>
    obtain ⟨x, hx, heq, _, hall⟩ := pyMaxByLatency_go l a
    refine ⟨x, ?_, heq, ?_⟩
    · rcases hx with rfl | hx
      · exact List.mem_cons_self _ _
      · exact List.mem_cons_of_mem _ hx
    · intro y hy
      rcases List.mem_cons.mp hy with rfl | hy
      · obtain ⟨x2, hx2, heq2, hy2, hall2⟩ := pyMaxByLatency_go l y
        rw [heq] at heq2
        cases heq2
        exact hy2
      · exact hall y hy

/-- C10: `evaluate_latency` computes only over steps with a non-null
latency: a non-empty list whose every latency is null yields the same
all-zero metrics (with null `slowest_agent`) as the empty list; and
whenever some latency is present, `slowest_agent` is the `step_id` of a
step whose latency is non-null and maximal among the non-null latencies. -/
theorem evaluate_latency_ignores_null (steps : List InteractionStep) :
    (steps ≠ [] → (∀ s ∈ steps, s.latency = none) →
      evaluate_latency steps = emptyLatencyMetrics ∧
      evaluate_latency steps = evaluate_latency []) ∧
    ((∃ s ∈ steps, s.latency.isSome) →
      ∃ s ∈ steps, ∃ v, s.latency = some v ∧
        (evaluate_latency steps).slowest_agent = some s.step_id ∧
        ∀ s2 ∈ steps, ∀ v2, s2.latency = some v2 → v2 ≤ v) := by
  constructor
  · intro hne hall
    have h1 : steps.isEmpty = false := by
      cases steps with
      | nil => exact absurd rfl hne
      | cons a l => rfl
    have h2 : (steps.filterMap (fun s => s.latency)).isEmpty = true := by
      rw [List.isEmpty_iff, List.filterMap_eq_nil_iff]
      exact hall
    have : evaluate_latency steps = emptyLatencyMetrics := by
      unfold evaluate_latency
      simp only [h1, h2, Bool.false_eq_true, if_false, if_true]
    exact ⟨this, this⟩
  · rintro ⟨s, hs, hsome⟩
    obtain ⟨v0, hv0⟩ := Option.isSome_iff_exists.mp hsome
    have h1 : steps.isEmpty = false := by
      cases steps with
      | nil => exact absurd hs (List.not_mem_nil s)
      | cons a l => rfl
    have h2 : (steps.filterMap (fun s => s.latency)).isEmpty = false := by
      rw [List.isEmpty_eq_false_iff_exists_mem]
      exact ⟨v0, List.mem_filterMap.mpr ⟨s, hs, hv0⟩⟩
    have hproj : (evaluate_latency steps).slowest_agent = slowestAgent steps := by
      unfold evaluate_latency
      simp only [h1, h2, Bool.false_eq_true, if_false]
    have hwl : steps.filter (fun s => s.latency.isSome) ≠ [] := by
      intro hnil
      have hmem : s ∈ steps.filter (fun s => s.latency.isSome) := by
        rw [List.mem_filter]
        exact ⟨hs, hsome⟩
      rw [hnil] at hmem
      exact List.not_mem_nil s hmem
    obtain ⟨x, hx, heq, hall⟩ :=
      pyMaxByLatency_spec (steps.filter (fun s => s.latency.isSome)) hwl
    have hxmem : x ∈ steps := (List.mem_filter.mp hx).1
    have hxsome : x.latency.isSome := by
      simpa using (List.mem_filter.mp hx).2
    obtain ⟨vx, hvx⟩ := Option.isSome_iff_exists.mp hxsome
    refine ⟨x, hxmem, vx, hvx, ?_, ?_⟩
    · rw [hproj]
      unfold slowestAgent
      have hflt : (steps.filter (fun s => s.latency.isSome)).isEmpty = false := by
        rw [List.isEmpty_eq_false_iff_exists_mem]
        exact ⟨x, hx⟩
      simp only [hflt, Bool.false_eq_true, if_false, heq]
      rfl
    · intro s2 hs2 v2 hv2
      have hs2f : s2 ∈ steps.filter (fun s => s.latency.isSome) := by
        rw [List.mem_filter]
        exact ⟨hs2, by simp [hv2]⟩
      have := hall s2 hs2f
      rwa [latencyOrZero, latencyOrZero, hv2, hvx] at this

/-- Witness for C10: two all-null steps collapse to the empty metrics, and
with latencies 100 and 300 present the slowest agent is the 300 ms step. -/
theorem evaluate_latency_ignores_null_witness :
    (evaluate_latency [mkStep "a", mkStep "b"] = emptyLatencyMetrics) ∧
    (evaluate_latency [mkStep "a", mkStep "b"] = evaluate_latency []) ∧
    (evaluate_latency
        [mkStep "a" none (some 100), mkStep "b" none (some 300)]).slowest_agent =
      some "b" := by
  obtain ⟨hempty1, hempty2⟩ :=
    (evaluate_latency_ignores_null [mkStep "a", mkStep "b"]).1 (by simp)
      (by intro s hs; rcases List.mem_cons.mp hs with rfl | hs
          · rfl
          · rcases List.mem_cons.mp hs with rfl | hs
            · rfl
            · exact absurd hs (List.not_mem_nil s))
  refine ⟨hempty1, hempty2, ?_⟩
  obtain ⟨s, hs, v, hv, hslow, hmax⟩ :=
    (evaluate_latency_ignores_null
      [mkStep "a" none (some 100), mkStep "b" none (some 300)]).2
      ⟨mkStep "a" none (some 100), by simp, rfl⟩
  rcases List.mem_cons.mp hs with rfl | hs
  · exfalso
    have h300 := hmax (mkStep "b" none (some 300)) (by simp) 300 rfl
    have hv100 : (100 : ℤ) = v := Option.some_injective _ hv
    rw [← hv100] at h300
    norm_num at h300
  · rcases List.mem_cons.mp hs with rfl | hs
    · exact hslow
    · exact absurd hs (List.not_mem_nil s)

end GraphJudge
